import Mathlib

/-!
Verification of the HYPERA multi-agent hyperparameter-optimization core.

This file gives a shallow embedding, in Lean 4, of the agent decision/update
loop and the multi-agent conflict-resolution coordinator of the HYPERA
repository:

  * `HYPERA1/agents/learning_rate_agent.py`   (`LearningRateAgent`)
  * `HYPERA1/agents/class_weights_agent.py`   (`ClassWeightsAgent`)
  * `HYPERA1/segmentation/segmentation_agent_coordinator.py`
    (`SegmentationAgentCoordinator`)
  * `HYPERA1/segmentation/agents/fg_balance_agent.py` (`FGBalanceAgent`)

Python floats are modelled as rationals (`ℚ`); the transcendental library
calls the code makes (`np.log10`, `np.std`, `2.0 ** a`, `3.0 ** a`) are
passed in as explicit function parameters, since their values never decide
the control flow under verification.  Neural networks, the SAC policy, and
the optimizer are external collaborators of the code under study and are
abstracted as opaque inputs (a logits function, a per-agent refinement
result).  Fallible Python code (uncaught exceptions) is modelled with
`Except`; Python `None` results are modelled with `Option`.
-/

namespace Hypera

/-- Deterministic tail pad / tail truncate used throughout the repository:
`np.pad(xs, (0, n - len), 'constant')` when the vector is short, `xs[:n]`
when it is long, unchanged when the length already matches. -/
def padTruncate (n : ℕ) (xs : List ℚ) : List ℚ :=
  if xs.length < n then xs ++ List.replicate (n - xs.length) 0
  else if n < xs.length then xs.take n
  else xs

/-- `np.mean` of a list: sum divided by length (0 on the empty list, where
numpy would produce NaN; no call site under verification compares the NaN). -/
def listMean (xs : List ℚ) : ℚ := xs.sum / xs.length

/-- `xs[-k:]`: the last `k` elements of a list. -/
def lastN (k : ℕ) (xs : List ℚ) : List ℚ := xs.drop (xs.length - k)

/-- `np.clip(x, lo, hi)` on one scalar: `min (max x lo) hi`. -/
def clipQ (lo hi x : ℚ) : ℚ := min (max x lo) hi

/-- External numeric library calls made by the hyperparameter agents.
`log10` stands for `np.log10` and `std` for `np.std`; both are opaque to
the logic under verification (they only produce state-vector entries). -/
structure NumOps where
  log10 : ℚ → ℚ
  std : List ℚ → ℚ

/-- The slice of `SharedStateManager` read by the hyperparameter agents
(the spec's external-interface contract, section 6). -/
structure SharedState where
  enhancedStateVector : List String → List ℚ
  overfittingSignals : List ℚ
  metricHistory : String → ℕ → List ℚ
  latestMetric : String → Option ℚ
  currentEpoch : ℕ
  totalEpochs : Option ℕ

/-- Training progress fraction: `current_epoch / total_epochs` when the
total is known and positive, else `0.0` (both agents compute it this way). -/
def trainingProgress (ss : SharedState) : ℚ :=
  match ss.totalEpochs with
  | some t => if 0 < t then (ss.currentEpoch : ℚ) / (t : ℚ) else 0
  | none => 0

/-- Configuration and mutable scalar state of `LearningRateAgent` that
`get_state_representation` / `action_to_hyperparameter` /
`update_hyperparameter` read. -/
structure LRAgent where
  currentLr : ℚ
  minLr : ℚ
  maxLr : ℚ
  stateDim : ℕ
  metricsToTrack : List String
  useEnhancedState : Bool
  epochsSinceUpdate : ℕ
deriving DecidableEq

/-- `(np.log10(lr) - np.log10(min_lr)) / (np.log10(max_lr) - np.log10(min_lr))`. -/
def lrNormalized (ops : NumOps) (ag : LRAgent) : ℚ :=
  (ops.log10 ag.currentLr - ops.log10 ag.minLr) /
    (ops.log10 ag.maxLr - ops.log10 ag.minLr)

/-- Enhanced-path components of `LearningRateAgent.get_state_representation`:
enhanced features, then the overfitting-signal values, then the normalized
learning rate, `epochs_since_update / 10`, and training progress. -/
def lrEnhancedComponents (ops : NumOps) (ag : LRAgent) (ss : SharedState) : List ℚ :=
  ss.enhancedStateVector ag.metricsToTrack ++ ss.overfittingSignals ++
    [lrNormalized ops ag, (ag.epochsSinceUpdate : ℚ) / 10, trainingProgress ss]

/-- Per-metric triple of the fallback path: latest value, trend
(latest minus oldest in window) and volatility (`np.std`), or three zeros
when the metric has no history. -/
def lrMetricTriple (ops : NumOps) (history : List ℚ) : List ℚ :=
  if history.length > 0 then
    [history.getLastD 0,
     if history.length > 1 then history.getLastD 0 - history.headI else 0,
     if history.length > 1 then ops.std history else 0]
  else [0, 0, 0]

/-- Fallback-path components of `LearningRateAgent.get_state_representation`:
a triple per tracked metric (window `state_dim // len(metrics_to_track)`),
then the normalized learning rate, `epochs_since_update / 10`, and training
progress. -/
def lrFallbackComponents (ops : NumOps) (ag : LRAgent) (ss : SharedState) : List ℚ :=
  (ag.metricsToTrack.flatMap fun m =>
    lrMetricTriple ops (ss.metricHistory m (ag.stateDim / ag.metricsToTrack.length))) ++
    [lrNormalized ops ag, (ag.epochsSinceUpdate : ℚ) / 10, trainingProgress ss]

/-- `LearningRateAgent.get_state_representation`: the enhanced path is taken
when `use_enhanced_state` holds and the enhanced feature vector is nonempty;
either path pads or truncates its assembled components to `state_dim`. -/
def lrStateRepresentation (ops : NumOps) (ag : LRAgent) (ss : SharedState) : List ℚ :=
  if ag.useEnhancedState = true ∧ 0 < (ss.enhancedStateVector ag.metricsToTrack).length then
    padTruncate ag.stateDim (lrEnhancedComponents ops ag ss)
  else
    padTruncate ag.stateDim (lrFallbackComponents ops ag ss)

/-- Configuration and mutable state of `ClassWeightsAgent` read by its
`get_state_representation` / `action_to_hyperparameter` /
`update_hyperparameter` (the weight mapping is modelled by its list of
values, in class order). -/
structure CWAgent where
  currentClassWeights : List ℚ
  minWeight : ℚ
  maxWeight : ℚ
  numClasses : ℕ
  stateDim : ℕ
  metricsToTrack : List String
  useEnhancedState : Bool
  epochsSinceUpdate : ℕ
deriving DecidableEq

/-- `(w - min_weight) / (max_weight - min_weight)` for each current class weight. -/
def cwNormalizedWeights (ag : CWAgent) : List ℚ :=
  ag.currentClassWeights.map fun w => (w - ag.minWeight) / (ag.maxWeight - ag.minWeight)

/-- Per-class dice entries: `dice_class_{i}` when available, else the overall
`dice_score`, else `0.0`. -/
def cwPerClassDice (ag : CWAgent) (ss : SharedState) : List ℚ :=
  (List.range ag.numClasses).map fun i =>
    match ss.latestMetric ("dice_class_" ++ toString i) with
    | some d => d
    | none => (ss.latestMetric "dice_score").getD 0

/-- Enhanced-path components of `ClassWeightsAgent.get_state_representation`. -/
def cwEnhancedComponents (ag : CWAgent) (ss : SharedState) : List ℚ :=
  ss.enhancedStateVector ag.metricsToTrack ++ ss.overfittingSignals ++
    cwNormalizedWeights ag ++ cwPerClassDice ag ss ++
    [(ag.epochsSinceUpdate : ℚ) / 10, trainingProgress ss]

/-- Per-metric pair of the class-weights fallback path: latest value and
trend over a window of 5, or two zeros without history; the `class_dice`
pseudo-metric is skipped. -/
def cwMetricPair (history : List ℚ) : List ℚ :=
  if history.length > 0 then
    [history.getLastD 0,
     if history.length > 1 then history.getLastD 0 - history.headI else 0]
  else [0, 0]

/-- Fallback-path components of `ClassWeightsAgent.get_state_representation`. -/
def cwFallbackComponents (ag : CWAgent) (ss : SharedState) : List ℚ :=
  (ag.metricsToTrack.flatMap fun m =>
    if m = "class_dice" then [] else cwMetricPair (ss.metricHistory m 5)) ++
    cwNormalizedWeights ag ++ cwPerClassDice ag ss ++
    [(ag.epochsSinceUpdate : ℚ) / 10, trainingProgress ss]

/-- `ClassWeightsAgent.get_state_representation`: enhanced path when enabled
and nonempty, fallback otherwise; both pad or truncate to `state_dim`. -/
def cwStateRepresentation (ag : CWAgent) (ss : SharedState) : List ℚ :=
  if ag.useEnhancedState = true ∧ 0 < (ss.enhancedStateVector ag.metricsToTrack).length then
    padTruncate ag.stateDim (cwEnhancedComponents ag ss)
  else
    padTruncate ag.stateDim (cwFallbackComponents ag ss)

/-- An action as delivered by the SAC policy to `ClassWeightsAgent`: either
a bare scalar (not a list / ndarray) or a vector of per-class components. -/
inductive CWAction where
  | scalar (a : ℚ)
  | vector (v : List ℚ)
deriving DecidableEq

/-- The action-vector repair of `ClassWeightsAgent.action_to_hyperparameter`:
a scalar action is replaced by `np.ones(num_classes) * 0.1`; a vector of the
wrong arity is zero-padded or truncated to `num_classes`. -/
def cwActionVector (ag : CWAgent) : CWAction → List ℚ
  | .scalar _ => List.replicate ag.numClasses (1 / 10)
  | .vector v => padTruncate ag.numClasses v

/-- The pre-renormalization weights of
`ClassWeightsAgent.action_to_hyperparameter`: multiply current weights by
`2.0 ** action` componentwise (`pow2` stands for the base-2 exponential,
an external float operation), then `np.clip` into
`[min_weight, max_weight]`. -/
def cwNewWeightsPreNorm (pow2 : ℚ → ℚ) (ag : CWAgent) (action : CWAction) : List ℚ :=
  let factors := (cwActionVector ag action).map pow2
  (List.zipWith (· * ·) ag.currentClassWeights factors).map
    (clipQ ag.minWeight ag.maxWeight)

/-- `ClassWeightsAgent.action_to_hyperparameter`: clip as above, then, when
the mean of the clipped weights is positive, rescale by
`num_classes / sum` so that the weights have mean `1.0`. -/
def cwActionToHyperparameter (pow2 : ℚ → ℚ) (ag : CWAgent) (action : CWAction) : List ℚ :=
  let nw := cwNewWeightsPreNorm pow2 ag action
  if 0 < listMean nw then nw.map (· * ((ag.numClasses : ℚ) / nw.sum)) else nw

/-- `LearningRateAgent.action_to_hyperparameter`: multiply the current
learning rate by `3.0 ** action` (`pow3` stands for the base-3 exponential)
and `np.clip` into `[min_lr, max_lr]`. -/
def lrActionToHyperparameter (pow3 : ℚ → ℚ) (ag : LRAgent) (action : ℚ) : ℚ :=
  clipQ ag.minLr ag.maxLr (ag.currentLr * pow3 action)

/-- Result of `LearningRateAgent.update_hyperparameter`: the mutated agent,
the value written into `SharedState` via `set_hyperparameter`, and the
returned audit record fields. -/
structure LRUpdate where
  newAgent : LRAgent
  sharedWrite : ℚ
  oldValue : ℚ
  newValue : ℚ
  relativeChange : ℚ
deriving DecidableEq

/-- `LearningRateAgent.update_hyperparameter`: map the action, record the
relative change `new / old`, commit the new value to `current_lr` and to
shared state, and return the audit record.  The method does not touch
`epochs_since_update`. -/
def lrUpdateHyperparameter (pow3 : ℚ → ℚ) (ag : LRAgent) (action : ℚ) : LRUpdate :=
  let newLr := lrActionToHyperparameter pow3 ag action
  { newAgent := { ag with currentLr := newLr }
    sharedWrite := newLr
    oldValue := ag.currentLr
    newValue := newLr
    relativeChange := newLr / ag.currentLr }

/-- Result of `ClassWeightsAgent.update_hyperparameter`. -/
structure CWUpdate where
  newAgent : CWAgent
  sharedWrite : List ℚ
  oldValue : List ℚ
  newValue : List ℚ
  relativeChange : List ℚ
deriving DecidableEq

/-- `ClassWeightsAgent.update_hyperparameter`: map the action to new class
weights, record componentwise relative changes `new / old`, commit the new
weights to the agent and to shared state, and return the audit record.  The
method does not touch `epochs_since_update`. -/
def cwUpdateHyperparameter (pow2 : ℚ → ℚ) (ag : CWAgent) (action : CWAction) : CWUpdate :=
  let newWeights := cwActionToHyperparameter pow2 ag action
  { newAgent := { ag with currentClassWeights := newWeights }
    sharedWrite := newWeights
    oldValue := ag.currentClassWeights
    newValue := newWeights
    relativeChange := List.zipWith (· / ·) newWeights ag.currentClassWeights }

/-- A fixed-shape tensor with `n` scalar entries; `torch` elementwise
arithmetic on same-shaped tensors becomes pointwise arithmetic. -/
def Tensor (n : ℕ) : Type := Fin n → ℚ

instance (n : ℕ) : DecidableEq (Tensor n) :=
  fun f g => Fintype.decidablePiFintype f g

/-- `self.agent_weights.get(name, 1.0)`: the coordinator's weight dict is an
association list; missing names default to `1.0`. -/
def weightOf (wlist : List (String × ℚ)) (nm : String) : ℚ :=
  ((wlist.find? fun p => p.1 = nm).map Prod.snd).getD 1

/-- One iteration of the `weighted_average` accumulation loop of
`SegmentationAgentCoordinator._resolve_conflicts`: `combined` starts as
Python `None`, each step adds `weight * decision`, and `total_weight`
accumulates the weights. -/
def waStep (n : ℕ) (get : String → ℚ) (acc : Option (Tensor n) × ℚ)
    (p : String × Tensor n) : Option (Tensor n) × ℚ :=
  match acc.1 with
  | none => (some fun j => get p.1 * p.2 j, acc.2 + get p.1)
  | some c => (some fun j => c j + get p.1 * p.2 j, acc.2 + get p.1)

/-- The `weighted_average` accumulation loop, left-to-right over the
decisions dict. -/
def waFold (n : ℕ) (get : String → ℚ) (decs : List (String × Tensor n)) :
    Option (Tensor n) × ℚ :=
  decs.foldl (waStep n get) (none, 0)

/-- Sum of the weights the weighted-average loop accumulates. -/
def waTotalWeight (n : ℕ) (wlist : List (String × ℚ)) (decs : List (String × Tensor n)) : ℚ :=
  (decs.map fun p => weightOf wlist p.1).sum

/-- Exceptions `_resolve_conflicts` can raise: `next(iter(...))` on an empty
decisions dict raises `StopIteration`. -/
inductive ResolveErr where
  | stopIteration
deriving DecidableEq

/-- Python's stable descending sort of `agent_weights.items()` by value,
used by the `priority` branch. -/
def sortByWeightDesc (wlist : List (String × ℚ)) : List (String × ℚ) :=
  wlist.mergeSort fun a b => decide (b.2 ≤ a.2)

/-- `SegmentationAgentCoordinator._resolve_conflicts`.  The decisions dict is
an association list in insertion order; the result is `.ok none` where
Python returns `None`, `.ok (some t)` where it returns a tensor, and
`.error` where it raises.  `image` is `state_manager.current_image`, read
only by the zero-agent `voting` branch for `torch.zeros_like`. -/
def resolveConflicts (n : ℕ) (mode : String) (wlist : List (String × ℚ))
    (image : Tensor n) (decs : List (String × Tensor n)) :
    Except ResolveErr (Option (Tensor n)) :=
  if mode = "weighted_average" then
    let r := waFold n (weightOf wlist) decs
    .ok (if 0 < r.2 then r.1.map (fun c j => c j / r.2) else r.1)
  else if mode = "priority" then
    match (sortByWeightDesc wlist).find? (fun p => (decs.find? fun q => q.1 = p.1).isSome) with
    | some p =>
      match decs.find? fun q => q.1 = p.1 with
      | some q => .ok (some q.2)
      | none =>
        match decs with
        | [] => .error .stopIteration
        | q :: _ => .ok (some q.2)
    | none =>
      match decs with
      | [] => .error .stopIteration
      | q :: _ => .ok (some q.2)
  else if mode = "voting" then
    match decs with
    | [] => .ok (some fun _ => (0 : ℚ))
    | _ :: _ =>
      let mean : Tensor n := fun j => ((decs.map fun p => p.2 j).sum) / (decs.length : ℚ)
      .ok (some fun j => if (1 : ℚ)/2 < mean j then 1 else 0)
  else
    match decs with
    | [] => .error .stopIteration
    | q :: _ => .ok (some q.2)

/-- Per-agent weight assigned by the update loop of
`SegmentationAgentCoordinator._update_agent_weights`, before the
renormalization pass: `max(0.1, mean(rewards[-window:]))` when the agent
has at least `window` recorded rewards, its previous weight otherwise. -/
def preNormWeight (window : ℕ) (weights : String → ℚ) (perf : String → List ℚ)
    (nm : String) : ℚ :=
  if window ≤ (perf nm).length then max (1/10) (listMean (lastN window (perf nm)))
  else weights nm

/-- `sum(self.agent_weights.values())` after the update loop. -/
def totalPreNorm (window : ℕ) (names : List String) (weights : String → ℚ)
    (perf : String → List ℚ) : ℚ :=
  (names.map (preNormWeight window weights perf)).sum

/-- `SegmentationAgentCoordinator._update_agent_weights`: apply the
floor-at-`0.1` moving-average update to each agent with enough history,
then, when the total is positive, renormalize every weight by
`/= total; *= len(agent_weights)`. -/
def updateAgentWeights (window : ℕ) (names : List String) (weights : String → ℚ)
    (perf : String → List ℚ) : String → ℚ := fun nm =>
  if 0 < totalPreNorm window names weights perf then
    preNormWeight window weights perf nm / totalPreNorm window names weights perf *
      (names.length : ℚ)
  else preNormWeight window weights perf nm

/-- One agent as seen by `refine_segmentation`: its name and the value its
`apply_action` call produced for this cycle (`none` models Python `None`).
The per-agent pipeline feeding `apply_action` — state construction, the SAC
policy, the try/except dispatch over the two `apply_action` arities — is
external to the combination logic under verification and is abstracted into
this one result field. -/
structure RefAgent (n : ℕ) where
  name : String
  refinement : Option (Tensor n)

/-- One iteration of the refinement-combination loop of
`SegmentationAgentCoordinator.refine_segmentation`: a `None` refinement is
skipped; otherwise the step is the same weighted accumulation as in
`_resolve_conflicts`. -/
def refStep (n : ℕ) (weights : String → ℚ) (acc : Option (Tensor n) × ℚ)
    (p : String × Option (Tensor n)) : Option (Tensor n) × ℚ :=
  match p.2 with
  | none => acc
  | some refd => waStep n weights acc (p.1, refd)

/-- `SegmentationAgentCoordinator.refine_segmentation` (combination part):
collect each agent's refinement keyed by name, return the initial
predictions when there are no agents; otherwise weighted-average the
non-`None` refinements, return the initial predictions when every
refinement was `None` (or the accumulated weight is zero), else divide by
the total weight when positive and threshold at `0.5`. -/
def refineSegmentation (n : ℕ) (weights : String → ℚ) (agents : List (RefAgent n))
    (initial : Tensor n) : Tensor n :=
  let features := agents.map fun a => (a.name, a.refinement)
  if features.isEmpty then initial
  else
    let r := features.foldl (refStep n weights) (none, 0)
    match r.1 with
    | none => initial
    | some c =>
      if r.2 = 0 then initial
      else
        let c2 : Tensor n := if 0 < r.2 then fun j => c j / r.2 else c
        fun j => if (1 : ℚ)/2 < c2 j then 1 else 0

/-- A concrete two-agent reward history: agent `a` has received the single
reward `-5`, agent `b` the single reward `100`. -/
def perfC5 : String → List ℚ := fun nm => if nm = "a" then [-5] else [100]

/-- The slice of an observation dict of `FGBalanceAgent` that its `learn`
step reads (the image and the two foreground ratios fed to the policy
network; the remaining diagnostic entries do not influence `learn`). -/
structure FGObs where
  currentImage : List ℚ
  predFgRatio : ℚ
  targetFgRatio : ℚ
deriving DecidableEq

/-- The mutable state of `FGBalanceAgent` read and written by `learn`.
Actions are recorded by their `action_type` index into the 3-way action set
{increase, decrease, maintain}. -/
structure FGLearnState where
  lastUpdateStep : ℤ
  updateFrequency : ℤ
  actionHistory : List (Fin 3)
  rewardHistory : List ℚ
  observationHistory : List FGObs
deriving DecidableEq

/-- Exceptions `FGBalanceAgent.learn` can raise:
`self.observation_history[-1]` on an empty history raises `IndexError`. -/
inductive FGErr where
  | indexError
deriving DecidableEq

/-- The entries of the metrics dict returned by a non-skipped
`FGBalanceAgent.learn` that the policy update determines (`policy_loss` and
the echoed reward; the remaining entries are diagnostic copies of agent
state). -/
structure FGMetrics where
  policyLoss : ℚ
  reward : ℚ
deriving DecidableEq

/-- `FGBalanceAgent.learn(reward)`.  `logits` abstracts the feature
extractor / policy network forward pass (an external neural collaborator):
given the most recent observation it yields the three raw action logits.
The method appends the reward, returns `{}` (modelled `none`) when fewer
than `update_frequency` steps have elapsed since the last update, otherwise
commits `last_update_step`, returns `{}` when fewer than two actions or
fewer than two rewards are recorded, and otherwise reads the last
observation and action (raising `IndexError` when the observation history
is empty) and computes `policy_loss = -action_logits[0, action_type] *
reward`; the optimizer step mutates only the external networks. -/
def fgLearn (logits : FGObs → Fin 3 → ℚ) (currentStep : ℤ) (st : FGLearnState)
    (reward : ℚ) : Except FGErr (FGLearnState × Option FGMetrics) :=
  let st1 := { st with rewardHistory := st.rewardHistory ++ [reward] }
  if currentStep - st1.lastUpdateStep < st1.updateFrequency then .ok (st1, none)
  else
    let st2 := { st1 with lastUpdateStep := currentStep }
    if st2.actionHistory.length < 2 ∨ st2.rewardHistory.length < 2 then .ok (st2, none)
    else
      match st2.observationHistory.getLast?, st2.actionHistory.getLast? with
      | some obs, some a =>
        .ok (st2, some { policyLoss := -(logits obs a) * reward, reward := reward })
      | _, _ => .error .indexError

/-- Modelled from the spec: the "log-probability of the most recent stored
action" that the spec says the REINFORCE update uses — the logarithm of the
softmax probability of the chosen action under the three raw logits.  The
source computes the loss from the raw logit instead; this definition exists
to compare the two. -/
noncomputable def specLogProb (l : Fin 3 → ℝ) (a : Fin 3) : ℝ :=
  Real.log (Real.exp (l a) / ∑ i, Real.exp (l i))

/-- An observation with no content, for concrete scenarios. -/
def fgObs0 : FGObs := { currentImage := [], predFgRatio := 1/2, targetFgRatio := 1/2 }

/-- Concrete `learn` scenario: two recorded actions, one previously recorded
reward, but an *empty* observation history; the step gate is clear. -/
def fgStA : FGLearnState :=
  { lastUpdateStep := 0, updateFrequency := 1, actionHistory := [0, 1],
    rewardHistory := [1], observationHistory := [] }

/-- Concrete `learn` scenario: like `fgStA` but with one recorded
observation, so the update path is reached. -/
def fgStB : FGLearnState :=
  { lastUpdateStep := 0, updateFrequency := 1, actionHistory := [0, 1],
    rewardHistory := [1], observationHistory := [fgObs0] }

/-- The checkpoint blob written by `FGBalanceAgent._save_agent_state` and
read back by `_load_agent_state`: the serialized networks and optimizer
(opaque parameter vectors) plus the three scalar agent-state fields. -/
structure FGCoreCheckpoint where
  featureExtractor : List ℚ
  policyNetwork : List ℚ
  optimizerState : List ℚ
  segmentationThreshold : ℚ
  targetFgRatio : ℚ
  avgFgRatio : ℚ
deriving DecidableEq

/-- The persistent fields of `FGBalanceAgent` touched by `_load_agent_state`
(the rest of the agent is unaffected by that method). -/
structure FGPersist where
  featureExtractor : List ℚ
  policyNetwork : List ℚ
  optimizerState : List ℚ
  segmentationThreshold : ℚ
  targetFgRatio : ℚ
  avgFgRatio : ℚ
deriving DecidableEq

/-- Exceptions the public `FGBalanceAgent.load` can raise: `torch.load` on
a path with no file raises (`FileNotFoundError`). -/
inductive FGLoadErr where
  | fileNotFound
deriving DecidableEq

/-- The public `FGBalanceAgent.load(path)`: calls `torch.load(path)` with no
existence check and no try/except, so a missing file raises; on success it
assigns every checkpoint field and returns `None` (no success boolean).
The filesystem plus deserializer is modelled as a partial map from paths to
checkpoints. -/
def fgLoad (fs : String → Option FGCoreCheckpoint) (st : FGPersist) (path : String) :
    Except FGLoadErr FGPersist :=
  match fs path with
  | none => .error .fileNotFound
  | some c =>
    .ok { featureExtractor := c.featureExtractor, policyNetwork := c.policyNetwork,
          optimizerState := c.optimizerState,
          segmentationThreshold := c.segmentationThreshold,
          targetFgRatio := c.targetFgRatio, avgFgRatio := c.avgFgRatio }

/-- `FGBalanceAgent._load_agent_state(path)`: returns `False` without
touching the agent when `os.path.exists(path)` fails, otherwise loads the
checkpoint inside a try/except, restores the networks, optimizer and the
three scalars, and returns `True`. -/
def fgLoadAgentState (fs : String → Option FGCoreCheckpoint) (st : FGPersist)
    (path : String) : Bool × FGPersist :=
  match fs path with
  | none => (false, st)
  | some c =>
    (true,
      { featureExtractor := c.featureExtractor, policyNetwork := c.policyNetwork,
        optimizerState := c.optimizerState,
        segmentationThreshold := c.segmentationThreshold,
        targetFgRatio := c.targetFgRatio, avgFgRatio := c.avgFgRatio })

/-- An agent state before loading, for the concrete C8 scenario. -/
def fgPersist0 : FGPersist :=
  { featureExtractor := [1], policyNetwork := [2], optimizerState := [3],
    segmentationThreshold := 1/2, targetFgRatio := 1/2, avgFgRatio := 1/2 }

/-- A checkpoint with recognizably different contents. -/
def fgCkpt0 : FGCoreCheckpoint :=
  { featureExtractor := [4], policyNetwork := [5], optimizerState := [6],
    segmentationThreshold := 7/10, targetFgRatio := 3/10, avgFgRatio := 2/5 }

theorem padTruncate_length (n : ℕ) (xs : List ℚ) : (padTruncate n xs).length = n := by
  unfold padTruncate
  split
  · simp; omega
  · split
    · simp; omega
    · omega


/-- Claim C1: for every agent configuration and every content of
`SharedState` (any number of available metrics, enhanced features present or
absent, overfitting signals present or absent), `get_state_representation()`
of both the `LearningRateAgent` and the `ClassWeightsAgent` returns a vector
of exactly `state_dim` elements: a shorter assembled vector is zero-padded
at the tail and a longer one is truncated at the tail, deterministically. -/
theorem stateRepresentation_length_eq_stateDim (ops : NumOps) (agL : LRAgent)
    (agC : CWAgent) (ss ss' : SharedState) :
    (lrStateRepresentation ops agL ss).length = agL.stateDim ∧
    (cwStateRepresentation agC ss').length = agC.stateDim := by
  constructor
  · unfold lrStateRepresentation
    split <;> exact padTruncate_length _ _
  · unfold cwStateRepresentation
    split <;> exact padTruncate_length _ _


theorem cwActionVector_length (ag : CWAgent) (action : CWAction) :
    (cwActionVector ag action).length = ag.numClasses := by
  cases action with
  | scalar a => simp [cwActionVector]
  | vector v => exact padTruncate_length _ _


theorem cwNewWeightsPreNorm_length (pow2 : ℚ → ℚ) (ag : CWAgent) (action : CWAction)
    (hlen : ag.currentClassWeights.length = ag.numClasses) :
    (cwNewWeightsPreNorm pow2 ag action).length = ag.numClasses := by
  simp [cwNewWeightsPreNorm, hlen, cwActionVector_length]


/-- Claim C2: for every action and every current class-weight vector with
positive entries, `ClassWeightsAgent.action_to_hyperparameter` returns
weights that, before the final renormalization step, each lie in
`[min_weight, max_weight]`, and that after renormalization sum to
`num_classes`, i.e. have mean exactly `1.0` (exact in `ℚ`, which is the
"within floating tolerance" of the claim). -/
theorem cwActionToHyperparameter_bounds_and_mean (pow2 : ℚ → ℚ) (ag : CWAgent)
    (action : CWAction) (hmin : 0 < ag.minWeight) (hminmax : ag.minWeight ≤ ag.maxWeight)
    (hlen : ag.currentClassWeights.length = ag.numClasses) (hn : 0 < ag.numClasses)
    (hpos : ∀ w ∈ ag.currentClassWeights, 0 < w) :
    (∀ x ∈ cwNewWeightsPreNorm pow2 ag action, ag.minWeight ≤ x ∧ x ≤ ag.maxWeight) ∧
    (cwActionToHyperparameter pow2 ag action).sum = (ag.numClasses : ℚ) ∧
    listMean (cwActionToHyperparameter pow2 ag action) = 1 := by
  have hbounds : ∀ x ∈ cwNewWeightsPreNorm pow2 ag action,
      ag.minWeight ≤ x ∧ x ≤ ag.maxWeight := by
    intro x hx
    simp only [cwNewWeightsPreNorm, List.mem_map] at hx
    obtain ⟨y, _, rfl⟩ := hx
    refine ⟨le_min (le_max_right _ _) hminmax, min_le_right _ _⟩
  refine ⟨hbounds, ?_⟩
  have hlen' : (cwNewWeightsPreNorm pow2 ag action).length = ag.numClasses :=
    cwNewWeightsPreNorm_length pow2 ag action hlen
  have hne : cwNewWeightsPreNorm pow2 ag action ≠ [] := by
    intro h
    rw [h] at hlen'
    simp at hlen'
    omega
  have hsumpos : 0 < (cwNewWeightsPreNorm pow2 ag action).sum := by
    apply List.sum_pos
    · intro x hx
      exact lt_of_lt_of_le hmin (hbounds x hx).1
    · exact hne
  have hmeanpos : 0 < listMean (cwNewWeightsPreNorm pow2 ag action) := by
    unfold listMean
    apply div_pos hsumpos
    rw [hlen']
    exact_mod_cast hn
  have hres : cwActionToHyperparameter pow2 ag action =
      (cwNewWeightsPreNorm pow2 ag action).map
        (· * ((ag.numClasses : ℚ) / (cwNewWeightsPreNorm pow2 ag action).sum)) := by
    unfold cwActionToHyperparameter
    rw [if_pos hmeanpos]
  have hsum : (cwActionToHyperparameter pow2 ag action).sum = (ag.numClasses : ℚ) := by
    rw [hres, List.sum_map_mul_right, List.map_id']
    field_simp
  refine ⟨hsum, ?_⟩
  unfold listMean
  rw [hsum, hres, List.length_map, hlen']
  have : ((ag.numClasses : ℕ) : ℚ) ≠ 0 := by exact_mod_cast Nat.pos_iff_ne_zero.mp hn
  field_simp


/-- Witness for C2: two classes, `min_weight = 1/2`, `max_weight = 5`,
current weights both `1`, action `[1, -1]` with the base-2 exponential
taking `1 ↦ 2` and `-1 ↦ 1/2`. -/
theorem cwActionToHyperparameter_bounds_and_mean_witness :
    (∀ x ∈ cwNewWeightsPreNorm (fun a => if a = 1 then 2 else if a = -1 then 1/2 else 1)
        { currentClassWeights := [1, 1], minWeight := 1/2, maxWeight := 5,
          numClasses := 2, stateDim := 24, metricsToTrack := [],
          useEnhancedState := true, epochsSinceUpdate := 0 }
        (.vector [1, -1]), (1:ℚ)/2 ≤ x ∧ x ≤ 5) ∧
    (cwActionToHyperparameter (fun a => if a = 1 then 2 else if a = -1 then 1/2 else 1)
        { currentClassWeights := [1, 1], minWeight := 1/2, maxWeight := 5,
          numClasses := 2, stateDim := 24, metricsToTrack := [],
          useEnhancedState := true, epochsSinceUpdate := 0 }
        (.vector [1, -1])).sum = ((2:ℕ) : ℚ) ∧
    listMean (cwActionToHyperparameter (fun a => if a = 1 then 2 else if a = -1 then 1/2 else 1)
        { currentClassWeights := [1, 1], minWeight := 1/2, maxWeight := 5,
          numClasses := 2, stateDim := 24, metricsToTrack := [],
          useEnhancedState := true, epochsSinceUpdate := 0 }
        (.vector [1, -1])) = 1 :=
  cwActionToHyperparameter_bounds_and_mean _ _ _ (by norm_num) (by norm_num)
    (by decide) (by decide) (by decide)


/-- Counterexample to claim C3 as stated: `update_hyperparameter` does not
reset `epochs_since_update` to `0`.  A `LearningRateAgent` whose
`epochs_since_update` is `5` still has `epochs_since_update = 5` after
`update_hyperparameter` commits a new learning rate. -/
theorem lrUpdateHyperparameter_keeps_epochsSinceUpdate :
    (lrUpdateHyperparameter (fun _ => 1)
      { currentLr := 1/1000, minLr := 1/1000000, maxLr := 1/10, stateDim := 20,
        metricsToTrack := [], useEnhancedState := true, epochsSinceUpdate := 5 }
      0).newAgent.epochsSinceUpdate ≠ 0 := by
  decide


/-- Claim C3, amended: for every action, `update_hyperparameter` of a
hyperparameter agent (learning-rate or class-weights) commits the mapped
value into both the agent's own current-value field and SharedState, and
returns an audit record containing `old_value`, `new_value` and
`relative_change` (new divided by old); it leaves `epochs_since_update`
unchanged rather than resetting it to `0`. -/
theorem updateHyperparameter_commits_and_audits (pow3 pow2 : ℚ → ℚ) (agL : LRAgent)
    (agC : CWAgent) (a : ℚ) (v : CWAction) :
    ((lrUpdateHyperparameter pow3 agL a).newAgent.currentLr =
        lrActionToHyperparameter pow3 agL a ∧
      (lrUpdateHyperparameter pow3 agL a).sharedWrite =
        (lrUpdateHyperparameter pow3 agL a).newAgent.currentLr ∧
      (lrUpdateHyperparameter pow3 agL a).oldValue = agL.currentLr ∧
      (lrUpdateHyperparameter pow3 agL a).newValue =
        (lrUpdateHyperparameter pow3 agL a).newAgent.currentLr ∧
      (lrUpdateHyperparameter pow3 agL a).relativeChange =
        (lrUpdateHyperparameter pow3 agL a).newValue /
          (lrUpdateHyperparameter pow3 agL a).oldValue ∧
      (lrUpdateHyperparameter pow3 agL a).newAgent.epochsSinceUpdate =
        agL.epochsSinceUpdate) ∧
    ((cwUpdateHyperparameter pow2 agC v).newAgent.currentClassWeights =
        cwActionToHyperparameter pow2 agC v ∧
      (cwUpdateHyperparameter pow2 agC v).sharedWrite =
        (cwUpdateHyperparameter pow2 agC v).newAgent.currentClassWeights ∧
      (cwUpdateHyperparameter pow2 agC v).oldValue = agC.currentClassWeights ∧
      (cwUpdateHyperparameter pow2 agC v).newValue =
        (cwUpdateHyperparameter pow2 agC v).newAgent.currentClassWeights ∧
      (cwUpdateHyperparameter pow2 agC v).relativeChange =
        List.zipWith (· / ·) (cwUpdateHyperparameter pow2 agC v).newValue
          (cwUpdateHyperparameter pow2 agC v).oldValue ∧
      (cwUpdateHyperparameter pow2 agC v).newAgent.epochsSinceUpdate =
        agC.epochsSinceUpdate) := by
  constructor
  · refine ⟨rfl, rfl, rfl, rfl, rfl, rfl⟩
  · refine ⟨rfl, rfl, rfl, rfl, rfl, rfl⟩


theorem waFold_go (n : ℕ) (get : String → ℚ) (decs : List (String × Tensor n))
    (c : Tensor n) (t : ℚ) :
    decs.foldl (waStep n get) (some c, t) =
    (some fun j => c j + (decs.map fun q => get q.1 * q.2 j).sum,
      t + (decs.map fun q => get q.1).sum) := by
  induction decs generalizing c t with
  | nil => simp
  | cons p rest ih =>
    simp only [List.foldl_cons, List.map_cons, List.sum_cons, waStep]
    rw [ih]
    simp only [Prod.mk.injEq, Option.some.injEq]
    constructor
    · first
      | trivial
      | (funext j; ring)
    · first
      | trivial
      | ring


theorem waFold_cons (n : ℕ) (get : String → ℚ) (p : String × Tensor n)
    (rest : List (String × Tensor n)) :
    waFold n get (p :: rest) =
      (some fun j => ((p :: rest).map fun q => get q.1 * q.2 j).sum,
        ((p :: rest).map fun q => get q.1).sum) := by
  unfold waFold
  simp only [List.foldl_cons, List.map_cons, List.sum_cons, waStep]
  rw [waFold_go]
  simp only [Prod.mk.injEq, Option.some.injEq]
  constructor
  · trivial
  · ring


/-- The `weighted_average` branch of `_resolve_conflicts`, unfolded. -/
theorem resolveConflicts_wa_eq (n : ℕ) (wlist : List (String × ℚ)) (image : Tensor n)
    (decs : List (String × Tensor n)) :
    resolveConflicts n "weighted_average" wlist image decs =
      .ok (if 0 < (waFold n (weightOf wlist) decs).2 then
            (waFold n (weightOf wlist) decs).1.map
              (fun c j => c j / (waFold n (weightOf wlist) decs).2)
          else (waFold n (weightOf wlist) decs).1) := rfl


/-- Claim C4: with `conflict_resolution` set to `weighted_average`,
`_resolve_conflicts` returns the elementwise weighted mean of all agents'
decision tensors using the current `agent_weights` (every weight the loop
reads being positive, as the coordinator maintains), and returns `None`
exactly when the set of agent decisions is empty. -/
theorem resolveConflicts_weightedAverage (n : ℕ) (wlist : List (String × ℚ))
    (image : Tensor n) (decs : List (String × Tensor n))
    (hw : ∀ q ∈ decs, 0 < weightOf wlist q.1) :
    (resolveConflicts n "weighted_average" wlist image decs = .ok none ↔ decs = []) ∧
    (∀ p rest, decs = p :: rest →
      resolveConflicts n "weighted_average" wlist image decs =
        .ok (some fun j =>
          (decs.map fun q => weightOf wlist q.1 * q.2 j).sum /
            waTotalWeight n wlist decs)) := by
  constructor
  · constructor
    · intro h
      cases decs with
      | nil => rfl
      | cons p rest =>
        exfalso
        rw [resolveConflicts_wa_eq, waFold_cons] at h
        simp only [Except.ok.injEq] at h
        split at h <;> simp at h
    · intro h
      subst h
      rfl
  · intro p rest hdecs
    subst hdecs
    have htot : 0 < waTotalWeight n wlist (p :: rest) := by
      apply List.sum_pos
      · intro x hx
        simp only [List.mem_map] at hx
        obtain ⟨q, hq, rfl⟩ := hx
        exact hw q hq
      · simp
    rw [resolveConflicts_wa_eq, waFold_cons]
    have htot' : 0 < ((p :: rest).map fun q => weightOf wlist q.1).sum := htot
    rw [if_pos htot']
    rfl


/-- Witness for C4, the claim's own example: agent `A` with weight `2.0` and
decision `1.0`, agent `B` with weight `1.0` and decision `0.0`; the
combination is `2/3` at every pixel. -/
theorem resolveConflicts_weightedAverage_witness :
    resolveConflicts 1 "weighted_average" [("A", 2), ("B", 1)] (fun _ => 0)
        [("A", fun _ => 1), ("B", fun _ => 0)] =
      .ok (some fun j =>
        (([("A", fun _ => (1:ℚ)), ("B", fun _ => 0)].map
            fun q => weightOf [("A", 2), ("B", 1)] q.1 * q.2 j).sum /
          waTotalWeight 1 [("A", 2), ("B", 1)] [("A", fun _ => 1), ("B", fun _ => 0)])) ∧
    ((([("A", fun _ => (1:ℚ)), ("B", fun _ => 0)].map
          fun q => weightOf [("A", 2), ("B", 1)] q.1 * q.2 (0 : Fin 1)).sum /
        waTotalWeight 1 [("A", 2), ("B", 1)] [("A", fun _ => 1), ("B", fun _ => 0)]) =
      2/3) :=
  ⟨(resolveConflicts_weightedAverage 1 [("A", 2), ("B", 1)] (fun _ => 0)
      [("A", fun _ => 1), ("B", fun _ => 0)] (by
        intro q hq
        simp only [List.mem_cons, List.not_mem_nil, or_false] at hq
        have hA : weightOf [("A", (2:ℚ)), ("B", 1)] "A" = 2 := rfl
        have hB : weightOf [("A", (2:ℚ)), ("B", 1)] "B" = 1 := rfl
        rcases hq with rfl | rfl
        · rw [hA]
          norm_num
        · rw [hB]
          norm_num)).2
      _ _ rfl,
    by
      have hA : weightOf [("A", (2:ℚ)), ("B", 1)] "A" = 2 := rfl
      have hB : weightOf [("A", (2:ℚ)), ("B", 1)] "B" = 1 := rfl
      simp only [waTotalWeight, List.map_cons, List.map_nil, List.sum_cons,
        List.sum_nil, hA, hB]
      norm_num⟩


/-- Claim C10: with `conflict_resolution` set to `voting` and an empty set
of agent decisions, `_resolve_conflicts` returns a zero tensor shaped like
the state manager's current image (not `None` and not an error), diverging
from the `weighted_average` mode, which returns `None` in the same
zero-agent case. -/
theorem resolveConflicts_voting_empty (n : ℕ) (wlist : List (String × ℚ))
    (image : Tensor n) :
    resolveConflicts n "voting" wlist image [] = .ok (some fun _ => (0 : ℚ)) ∧
    resolveConflicts n "weighted_average" wlist image [] = .ok none :=
  ⟨rfl, rfl⟩


/-- Counterexample to claim C9 as stated: an unrecognized
conflict-resolution mode together with an *empty* decisions dict does not
return a decision — `next(iter(agent_decisions.values()))` raises
`StopIteration`. -/
theorem resolveConflicts_unknown_empty_raises :
    resolveConflicts 1 "majority" [] (fun _ => 0) [] = .error .stopIteration := by
  rfl


/-- Claim C9, amended: for every *nonempty* set of agent decisions and every
`conflict_resolution` string that is not one of the recognized modes,
`_resolve_conflicts` returns the first available agent's decision as a
permissive fallback rather than raising; on an empty set it raises
`StopIteration` instead. -/
theorem resolveConflicts_unknown_fallback (n : ℕ) (mode : String)
    (wlist : List (String × ℚ)) (image : Tensor n) (p : String × Tensor n)
    (rest : List (String × Tensor n)) (h1 : mode ≠ "weighted_average")
    (h2 : mode ≠ "priority") (h3 : mode ≠ "voting") :
    resolveConflicts n mode wlist image (p :: rest) = .ok (some p.2) := by
  simp only [resolveConflicts, if_neg h1, if_neg h2, if_neg h3]


/-- Witness for the amended C9: mode `"majority"` with one decision returns
that decision. -/
theorem resolveConflicts_unknown_fallback_witness :
    resolveConflicts 1 "majority" [] (fun _ => 0) [("a", fun _ => 4)] =
      .ok (some fun _ => 4) :=
  resolveConflicts_unknown_fallback 1 "majority" [] (fun _ => 0) ("a", fun _ => 4) []
    (by decide) (by decide) (by decide)


/-- Counterexample to claim C5 as stated: after
`_update_agent_weights(window = 1)` with agents `a` (single reward `-5`)
and `b` (single reward `100`), both histories have length `≥ window`, yet
agent `a`'s post-call weight is `2/1001 < 0.1`: the `0.1` floor is applied
before renormalization and does not survive it. -/
theorem updateAgentWeights_floor_violated :
    updateAgentWeights 1 ["a", "b"] (fun _ => 1) perfC5 "a" < 1/10 ∧
    1 ≤ (perfC5 "a").length := by
  have ha : perfC5 "a" = [-5] := rfl
  have hb : perfC5 "b" = [100] := rfl
  have hpa : preNormWeight 1 (fun _ => 1) perfC5 "a" = 1/10 := by
    rw [preNormWeight, ha]
    norm_num [listMean, lastN, max_def]
  have hpb : preNormWeight 1 (fun _ => 1) perfC5 "b" = 100 := by
    rw [preNormWeight, hb]
    norm_num [listMean, lastN, max_def]
  have htot : totalPreNorm 1 ["a", "b"] (fun _ => 1) perfC5 = 1001/10 := by
    rw [totalPreNorm]
    simp only [List.map_cons, List.map_nil, List.sum_cons, List.sum_nil, hpa, hpb]
    norm_num
  constructor
  · rw [updateAgentWeights, htot, hpa]
    norm_num
  · rw [ha]
    norm_num


/-- Claim C5, amended: in `_update_agent_weights(window)`, every agent whose
recorded reward history has length at least `window` is assigned the
pre-renormalization weight `max(0.1, mean of last window rewards)`, which is
at least `0.1` even when the mean is negative; and whenever the
pre-renormalization total is positive, the renormalized weights of all
agents sum exactly to the number of agents.  (After renormalization an
individual weight may fall below `0.1`.) -/
theorem updateAgentWeights_preNorm_floor_and_sum (window : ℕ) (names : List String)
    (weights : String → ℚ) (perf : String → List ℚ) :
    (∀ nm, window ≤ (perf nm).length → 1/10 ≤ preNormWeight window weights perf nm) ∧
    (0 < totalPreNorm window names weights perf →
      (names.map (updateAgentWeights window names weights perf)).sum =
        (names.length : ℚ)) := by
  constructor
  · intro nm h
    unfold preNormWeight
    rw [if_pos h]
    exact le_max_left _ _
  · intro htot
    have hmap : (names.map (updateAgentWeights window names weights perf)) =
        names.map fun nm => preNormWeight window weights perf nm *
          ((names.length : ℚ) / totalPreNorm window names weights perf) := by
      apply List.map_congr_left
      intro nm _
      simp only [updateAgentWeights, if_pos htot]
      ring
    rw [hmap, List.sum_map_mul_right]
    unfold totalPreNorm at htot ⊢
    field_simp


/-- Witness for the amended C5: the same two-agent scenario as the
counterexample; the pre-normalization weight of agent `a` is at least `0.1`
and the renormalized weights of `a` and `b` sum to `2`. -/
theorem updateAgentWeights_preNorm_floor_and_sum_witness :
    (1/10 : ℚ) ≤ preNormWeight 1 (fun _ => 1) perfC5 "a" ∧
    ((["a", "b"].map (updateAgentWeights 1 ["a", "b"] (fun _ => 1) perfC5)).sum =
      ((["a", "b"] : List String).length : ℚ)) :=
  ⟨(updateAgentWeights_preNorm_floor_and_sum 1 ["a", "b"] (fun _ => 1) perfC5).1 "a"
      (by rw [show perfC5 "a" = [-5] from rfl]; norm_num),
    (updateAgentWeights_preNorm_floor_and_sum 1 ["a", "b"] (fun _ => 1) perfC5).2 (by
      have hpa : preNormWeight 1 (fun _ => 1) perfC5 "a" = 1/10 := by
        rw [preNormWeight, show perfC5 "a" = [-5] from rfl]
        norm_num [listMean, lastN, max_def]
      have hpb : preNormWeight 1 (fun _ => 1) perfC5 "b" = 100 := by
        rw [preNormWeight, show perfC5 "b" = [100] from rfl]
        norm_num [listMean, lastN, max_def]
      rw [totalPreNorm]
      simp only [List.map_cons, List.map_nil, List.sum_cons, List.sum_nil, hpa, hpb]
      norm_num)⟩


theorem refineSegmentation_fold_allNone (n : ℕ) (weights : String → ℚ)
    (feats : List (String × Option (Tensor n))) (hnone : ∀ p ∈ feats, p.2 = none)
    (acc : Option (Tensor n) × ℚ) :
    feats.foldl (refStep n weights) acc = acc := by
  induction feats generalizing acc with
  | nil => rfl
  | cons p rest ih =>
    have hp : p.2 = none := hnone p (by simp)
    simp only [List.foldl_cons, refStep, hp]
    exact ih (fun q hq => hnone q (by simp [hq])) acc


/-- Claim C7: for every input tensor `initial_preds`, if every agent's
`apply_action` yields no refinement (returns `None`) — or the coordinator
has no agents at all — then `refine_segmentation` returns `initial_preds`
unchanged (and raises nothing: the function is total). -/
theorem refineSegmentation_allNone (n : ℕ) (weights : String → ℚ)
    (agents : List (RefAgent n)) (initial : Tensor n)
    (h : ∀ a ∈ agents, a.refinement = none) :
    refineSegmentation n weights agents initial = initial := by
  cases agents with
  | nil => rfl
  | cons a rest =>
    have hfeats : ∀ p ∈ (a.name, a.refinement) ::
        (rest.map fun b => (b.name, b.refinement)), p.2 = none := by
      intro p hp
      rcases List.mem_cons.mp hp with rfl | hp'
      · exact h a (by simp)
      · simp only [List.mem_map] at hp'
        obtain ⟨b, hb, rfl⟩ := hp'
        exact h b (by simp [hb])
    simp only [refineSegmentation, List.map_cons, List.isEmpty_cons, Bool.false_eq_true,
      if_false]
    rw [refineSegmentation_fold_allNone n weights _ hfeats (none, 0)]


/-- Witness for C7: one agent whose `apply_action` returned `None`; the
initial predictions come back unchanged. -/
theorem refineSegmentation_allNone_witness :
    refineSegmentation 1 (fun _ => 1) [{ name := "FGBalanceAgent", refinement := none }]
      (fun _ => 7) = fun _ => 7 :=
  refineSegmentation_allNone 1 (fun _ => 1)
    [{ name := "FGBalanceAgent", refinement := none }] (fun _ => 7) (by decide)


/-- Counterexample to claim C6 as stated, in two parts.  First: `learn` is
not a no-op returning `{}` whenever fewer than two *observations* are
recorded — with zero observations, two actions and two rewards it raises
`IndexError` instead.  Second: the loss of the update is not
`-log_prob(action) * reward`: with all three logits `0` and reward `1` the
code computes loss `0` (the raw logit), while `-log_prob(action) * reward`
is `log 3 ≠ 0`. -/
theorem fgLearn_counterexample :
    fgLearn (fun _ _ => 0) 5 fgStA 1 = .error .indexError ∧
    fgLearn (fun _ _ => 0) 5 fgStB 1 =
      .ok ({ lastUpdateStep := 5, updateFrequency := 1, actionHistory := [0, 1],
             rewardHistory := [1, 1], observationHistory := [fgObs0] },
           some { policyLoss := 0, reward := 1 }) ∧
    -(specLogProb (fun _ => 0) 0) * (1 : ℝ) ≠ 0 := by
  refine ⟨?_, ?_, ?_⟩
  · rfl
  · simp only [fgLearn, fgStB]
    norm_num
  · have hlog : specLogProb (fun _ => 0) 0 = -Real.log 3 := by
      simp only [specLogProb, Real.exp_zero, Finset.sum_const, Finset.card_univ,
        Fintype.card_fin, nsmul_eq_mul, mul_one, one_div, Real.log_inv]
      norm_num
    rw [hlog, neg_neg, mul_one]
    exact ne_of_gt (Real.log_pos (by norm_num))


/-- Claim C6, amended: `learn(reward)` first appends the reward to the
reward history; it then returns `{}` whenever fewer than `update_frequency`
steps have elapsed since the last learning step, or (after committing
`last_update_step`) whenever fewer than two actions or fewer than two
rewards are recorded — the observation history is *not* checked; otherwise
it reads the most recent stored observation and action and applies a
single-sample policy-gradient update whose loss equals
`-logits(action) * reward`, where `logits` are the unnormalized
policy-network outputs, not the normalized log-probability. -/
theorem fgLearn_gating_and_loss (logits : FGObs → Fin 3 → ℚ) (step : ℤ)
    (st : FGLearnState) (r : ℚ) :
    (step - st.lastUpdateStep < st.updateFrequency →
      fgLearn logits step st r =
        .ok ({ st with rewardHistory := st.rewardHistory ++ [r] }, none)) ∧
    (¬ step - st.lastUpdateStep < st.updateFrequency →
      (st.actionHistory.length < 2 ∨ st.rewardHistory.length + 1 < 2) →
      fgLearn logits step st r =
        .ok ({ st with
                 rewardHistory := st.rewardHistory ++ [r],
                 lastUpdateStep := step }, none)) ∧
    (∀ obs a, ¬ step - st.lastUpdateStep < st.updateFrequency →
      ¬ (st.actionHistory.length < 2 ∨ st.rewardHistory.length + 1 < 2) →
      st.observationHistory.getLast? = some obs →
      st.actionHistory.getLast? = some a →
      fgLearn logits step st r =
        .ok ({ st with
                 rewardHistory := st.rewardHistory ++ [r],
                 lastUpdateStep := step },
             some { policyLoss := -(logits obs a) * r, reward := r })) := by
  refine ⟨?_, ?_, ?_⟩
  · intro hgate
    simp only [fgLearn, if_pos hgate]
  · intro hgate hshort
    simp only [fgLearn, if_neg hgate]
    rw [if_pos]
    simpa using hshort
  · intro obs a hgate hshort hobs hact
    simp only [fgLearn, if_neg hgate]
    rw [if_neg]
    · rw [hobs, hact]
    · simpa using hshort


/-- Witness for the amended C6: the update path of the `fgStB` scenario,
instantiating the third conjunct at its concrete inputs. -/
theorem fgLearn_gating_and_loss_witness :
    fgLearn (fun _ _ => 0) 5 fgStB 1 =
      .ok ({ fgStB with
               rewardHistory := fgStB.rewardHistory ++ [1],
               lastUpdateStep := 5 },
           some { policyLoss := -((fun (_ : FGObs) (_ : Fin 3) => (0:ℚ)) fgObs0 1) * 1,
                  reward := 1 }) :=
  (fgLearn_gating_and_loss (fun _ _ => 0) 5 fgStB 1).2.2 fgObs0 1 (by decide)
    (by decide) rfl rfl


/-- Claim C8, evaluated on the code: on a path with no file, the public
`load` raises (`torch.load` → `FileNotFoundError`) instead of returning
`False` — only the unused `_load_agent_state` helper returns `False` there,
leaving the agent untouched; and a successful `_load_agent_state` restores
the network weights and all three scalar agent-state fields from the
checkpoint. -/
theorem fgLoad_missing_raises_and_loadAgentState_contract :
    fgLoad (fun _ => none) fgPersist0 "missing.pt" = .error .fileNotFound ∧
    fgLoadAgentState (fun _ => none) fgPersist0 "missing.pt" = (false, fgPersist0) ∧
    fgLoadAgentState (fun p => if p = "agent.pt" then some fgCkpt0 else none)
        fgPersist0 "agent.pt" =
      (true,
        { featureExtractor := [4], policyNetwork := [5], optimizerState := [6],
          segmentationThreshold := 7/10, targetFgRatio := 3/10, avgFgRatio := 2/5 }) :=
  ⟨rfl, rfl, rfl⟩

end Hypera
